import Mathlib

/-!
# TissueMAPS TmLibrary — verification of spec claims

Shallow embedding of the parts of the TmLibrary Python code base that the
frozen claims talk about, together with theorems settling each claim.

Python exceptions are modelled by an explicit error type; fallible code
returns `Except PyError _`.  Machine-integer behaviour (the `uint32`
histogram accumulator) is modelled with `Nat` and explicit `% 2^32`.
-/

/-- The kinds of Python exception that the embedded code can raise. -/
inductive PyError
  | workflowDescriptionError (msg : String)
  | nameError (msg : String)
  | typeError (msg : String)
  | valueError (msg : String)
  | keyError (msg : String)
  | attributeError (msg : String)
  | zeroDivisionError
  | notImplementedError (msg : String)
  | uniqueViolation (msg : String)
  deriving Repr, DecidableEq

namespace TmLib

/-! ## `tmlib/models/status.py` — `FileUploadStatus`

Three enumerated string constants `WAITING`, `UPLOADING`, `COMPLETE`. -/

inductive FileUploadStatus
  | WAITING
  | UPLOADING
  | COMPLETE
  deriving Repr, DecidableEq

namespace Plate

open FileUploadStatus

/-- `src/src/tmlib/models/plate.py`, `Plate.status`:

```python
child_status = set([f.upload_status for f in self.acquisitions])
if fus.UPLOADING in child_status:
    return fus.UPLOADING
elif len(child_status) == 1 and fus.COMPLETE in child_status:
    return fus.COMPLETE
else:
    return fus.WAITING
```

The Python `set` of the children's statuses is modelled by `List.dedup`. -/
def status (acquisitions : List FileUploadStatus) : FileUploadStatus :=
  let child_status := acquisitions.dedup
  if UPLOADING ∈ child_status then UPLOADING
  else if child_status.length = 1 ∧ COMPLETE ∈ child_status then COMPLETE
  else WAITING

end Plate

/-! ## `src/tmlib/logging_utils.py` — verbosity mapping

The Python `logging` module's numeric severity constants that the source's
`VERBOSITY_TO_LEVELS` table maps to. -/

def logging_WARN : Nat := 30
def logging_INFO : Nat := 20
def logging_DEBUG : Nat := 10
def logging_NOTSET : Nat := 0

/-- The module-level dict `VERBOSITY_TO_LEVELS` (keys `0..3`). -/
def VERBOSITY_TO_LEVELS : List (Int × Nat) :=
  [(0, logging_WARN), (1, logging_INFO), (2, logging_DEBUG), (3, logging_NOTSET)]

/-- `tmlib/logging_utils.py`, `map_logging_verbosity`:

```python
if not verbosity >= 0:
    raise ValueError(...)
if verbosity > len(VERBOSITY_TO_LEVELS):
    verbosity = len(VERBOSITY_TO_LEVELS) - 1
return VERBOSITY_TO_LEVELS.get(verbosity, logging.NOTSET)
```

(The `isinstance(verbosity, int)` guard is discharged by the `Int` type of
the argument.)  Note the source clamps only for `verbosity > 4`
(`len(VERBOSITY_TO_LEVELS) = 4`); `verbosity = 4` falls through to the
`dict.get` default `logging.NOTSET`. -/
def map_logging_verbosity (verbosity : Int) : Except PyError Nat :=
  if ¬ verbosity ≥ 0 then
    .error (.valueError "Argument \x22verbosity\x22 must be a positive number.")
  else
    let v := if verbosity > (VERBOSITY_TO_LEVELS.length : Int) then
        (VERBOSITY_TO_LEVELS.length : Int) - 1
      else verbosity
    .ok ((VERBOSITY_TO_LEVELS.lookup v).getD logging_NOTSET)

end TmLib

namespace TmLib.BgEngine

/-! ## `src/src/tmlib/engine.py` — `BgEngine`

The background engine wraps a GC3Pie `Engine`.  Every mutating proxy method
appends a `(bound engine method, positional args, kwargs)` tuple to the
pending queue `self._q`; the periodic `_perform` cycle drains the queue and
then runs `Engine.progress()`.  Tasks are identified by opaque numeric ids,
keyword-argument dicts by association lists. -/

/-- A queued engine operation: the wrapped `Engine` method together with the
exact positional arguments and keyword arguments the proxy method queues
(`self._q.append((self._engine.<method>, args, kwargs))`). -/
inductive EngineOp
  | add (task : Nat)
  | close
  | fetch_output (task : Nat) (output_dir : Option String) (overwrite : Bool)
      (changed_only : Bool) (extra : List (String × String))
  | free (task : Nat) (extra : List (String × String))
  | get_resources
  | get_backend (name : String)
  | kill (task : Nat) (extra : List (String × String))
  | peek (task : Nat) (what : String) (offset : Int) (size : Option Int)
      (extra : List (String × String))
  | remove (task : Nat)
  | select_resource (m : String)
  | submit (task : Nat) (resubmit : Bool) (targets : Option (List String))
      (extra : List (String × String))
  | update_job_state (tasks : List Nat) (extra : List (String × String))
  deriving Repr, DecidableEq

/-- Cache key of `at_most_once_per_cycle`:
`(fn, tuple(id(arg) for arg in args))` — the identity of the wrapped
function paired with the identities of the positional arguments. -/
abbrev CacheKey := Nat × List Nat

/-- The mutable state of a `BgEngine` instance together with the observable
trace of the wrapped engine:

* `q` — the pending operation queue `self._q`;
* `received` — the calls the wrapped `Engine` instance has received, in
  order (executing a dequeued tuple calls `fn(*args, **kwargs)` on the
  wrapped engine);
* `errorLog` — operations whose execution raised (caught and logged);
* `progress_last_run` — `self._progress_last_run`, `0` until the first
  successful `Engine.progress()` call, then the wall-clock time of the most
  recent successful progress cycle;
* `cache_last_updated` / `cache_value` — the memoization bookkeeping of
  `at_most_once_per_cycle` (`defaultdict(float)` defaults a missing key to
  `0.0`, and the lazy `AttributeError`-triggered initialization is
  equivalent to starting from those empty dicts). -/
structure BgState where
  q : List EngineOp
  received : List EngineOp
  errorLog : List EngineOp
  progress_last_run : ℚ
  cache_last_updated : CacheKey → ℚ
  cache_value : CacheKey → Option Nat

/-- The state of a freshly constructed `BgEngine` (empty queue, no progress
run yet, empty cache). -/
def initState : BgState where
  q := []
  received := []
  errorLog := []
  progress_last_run := 0
  cache_last_updated := fun _ => 0
  cache_value := fun _ => none

/-- `BgEngine.add(self, task)`. -/
def add (s : BgState) (task : Nat) : BgState :=
  { s with q := s.q ++ [.add task] }

/-- `BgEngine.close(self)`. -/
def close (s : BgState) : BgState :=
  { s with q := s.q ++ [.close] }

/-- `BgEngine.fetch_output(self, task, output_dir=None, overwrite=False,
changed_only=True, **extra_args)`. -/
def fetch_output (s : BgState) (task : Nat) (output_dir : Option String)
    (overwrite : Bool) (changed_only : Bool)
    (extra : List (String × String)) : BgState :=
  { s with q := s.q ++ [.fetch_output task output_dir overwrite changed_only extra] }

/-- `BgEngine.free(self, task, **extra_args)`. -/
def free (s : BgState) (task : Nat) (extra : List (String × String)) : BgState :=
  { s with q := s.q ++ [.free task extra] }

/-- `BgEngine.get_resources(self)`. -/
def get_resources (s : BgState) : BgState :=
  { s with q := s.q ++ [.get_resources] }

/-- `BgEngine.get_backend(self, name)`. -/
def get_backend (s : BgState) (name : String) : BgState :=
  { s with q := s.q ++ [.get_backend name] }

/-- `BgEngine.kill(self, task, **extra_args)`. -/
def kill (s : BgState) (task : Nat) (extra : List (String × String)) : BgState :=
  { s with q := s.q ++ [.kill task extra] }

/-- `BgEngine.peek(self, task, what='stdout', offset=0, size=None,
**extra_args)`. -/
def peek (s : BgState) (task : Nat) (what : String) (offset : Int)
    (size : Option Int) (extra : List (String × String)) : BgState :=
  { s with q := s.q ++ [.peek task what offset size extra] }

/-- `BgEngine.remove(self, task)`. -/
def remove (s : BgState) (task : Nat) : BgState :=
  { s with q := s.q ++ [.remove task] }

/-- `BgEngine.select_resource(self, match)`. -/
def select_resource (s : BgState) (m : String) : BgState :=
  { s with q := s.q ++ [.select_resource m] }

/-- `BgEngine.submit(self, task, resubmit=False, targets=None,
**extra_args)`. -/
def submit (s : BgState) (task : Nat) (resubmit : Bool)
    (targets : Option (List String)) (extra : List (String × String)) : BgState :=
  { s with q := s.q ++ [.submit task resubmit targets extra] }

/-- `BgEngine.update_job_state(self, *tasks, **extra_args)`. -/
def update_job_state (s : BgState) (tasks : List Nat)
    (extra : List (String × String)) : BgState :=
  { s with q := s.q ++ [.update_job_state tasks extra] }

/-- One call to a mutating proxy method of the `BgEngine` API, with the
arguments the caller passes. -/
inductive ProxyCall
  | add (task : Nat)
  | close
  | fetch_output (task : Nat) (output_dir : Option String) (overwrite : Bool)
      (changed_only : Bool) (extra : List (String × String))
  | free (task : Nat) (extra : List (String × String))
  | get_resources
  | get_backend (name : String)
  | kill (task : Nat) (extra : List (String × String))
  | peek (task : Nat) (what : String) (offset : Int) (size : Option Int)
      (extra : List (String × String))
  | remove (task : Nat)
  | select_resource (m : String)
  | submit (task : Nat) (resubmit : Bool) (targets : Option (List String))
      (extra : List (String × String))
  | update_job_state (tasks : List Nat) (extra : List (String × String))
  deriving Repr, DecidableEq

/-- Dispatch one proxy call to the corresponding proxy method. -/
def issue : ProxyCall → BgState → BgState
  | .add t, s => add s t
  | .close, s => close s
  | .fetch_output t d o c e, s => fetch_output s t d o c e
  | .free t e, s => free s t e
  | .get_resources, s => get_resources s
  | .get_backend n, s => get_backend s n
  | .kill t e, s => kill s t e
  | .peek t w o sz e, s => peek s t w o sz e
  | .remove t, s => remove s t
  | .select_resource m, s => select_resource s m
  | .submit t r tg e, s => submit s t r tg e
  | .update_job_state ts e, s => update_job_state s ts e

/-- The engine call that a proxy call queues. -/
def toEngineOp : ProxyCall → EngineOp
  | .add t => .add t
  | .close => .close
  | .fetch_output t d o c e => .fetch_output t d o c e
  | .free t e => .free t e
  | .get_resources => .get_resources
  | .get_backend n => .get_backend n
  | .kill t e => .kill t e
  | .peek t w o sz e => .peek t w o sz e
  | .remove t => .remove t
  | .select_resource m => .select_resource m
  | .submit t r tg e => .submit t r tg e
  | .update_job_state ts e => .update_job_state ts e

/-- Issue a sequence of proxy calls, in order. -/
def issueAll (cs : List ProxyCall) (s : BgState) : BgState :=
  cs.foldl (fun s c => issue c s) s

/-- Execution of one dequeued `(fn, args, kwargs)` tuple inside
`BgEngine._perform`: the wrapped engine receives the call (`fn(*args,
**kwargs)`); an exception raised by it is caught and logged without
propagating. -/
def execOp (invoke : EngineOp → Except String Unit) (st : BgState)
    (op : EngineOp) : BgState :=
  let st' := { st with received := st.received ++ [op] }
  match invoke op with
  | .ok _ => st'
  | .error _ => { st' with errorLog := st'.errorLog ++ [op] }

/-- Whether executing an operation on the wrapped engine raises. -/
def isFailure : Except String Unit → Bool
  | .ok _ => false
  | .error _ => true

/-- `BgEngine._perform(self)`, the main loop body run on each scheduler
tick:

1. atomically swap the pending queue for an empty list (under the lock);
2. execute each dequeued `(fn, args, kwargs)` in order — the wrapped engine
   receives the call, and a raised exception is caught and logged without
   aborting the remaining queue;
3. call `self._engine.progress()`; only if it succeeds, set
   `self._progress_last_run = time.time()`; a failure is caught and logged.

`invoke` gives the outcome of executing each operation on the wrapped
engine, `progressResult` the outcome of `Engine.progress()`, and `now` the
value of `time.time()` at step 3. -/
def perform (invoke : EngineOp → Except String Unit)
    (progressResult : Except String Unit) (now : ℚ) (s : BgState) : BgState :=
  let q := s.q
  let s1 := { s with q := [] }
  let s2 := q.foldl (execOp invoke) s1
  match progressResult with
  | .ok _ => { s2 with progress_last_run := now }
  | .error _ => s2

/-- `at_most_once_per_cycle(fn)` applied to a read-side method, invoked with
cache key `key = (fn, tuple(id(arg) for arg in args))` at wall-clock time
`now` (`time.time()`):

```python
if not self._progress_last_run:
    return fn(self, *args)
else:
    key = (fn, tuple(id(arg) for arg in args))
    update = self._cache_last_updated[key] < self._progress_last_run
    if update:
        self._cache_value[key] = fn(self, *args)
        self._cache_last_updated[key] = time.time()
    return self._cache_value[key]
```

`fn` is the underlying computation; its result may depend on the moment it
runs, hence the `ℚ` argument.  Reading `self._cache_value[key]` when the
key is absent would be a `KeyError`. -/
def cachedRead (fn : CacheKey → ℚ → Nat) (key : CacheKey) (now : ℚ)
    (s : BgState) : Except PyError Nat × BgState :=
  if s.progress_last_run = 0 then (.ok (fn key now), s)
  else
    if s.cache_last_updated key < s.progress_last_run then
      let v := fn key now
      (.ok v,
        { s with
          cache_value := fun k => if k = key then some v else s.cache_value k
          cache_last_updated := fun k =>
            if k = key then now else s.cache_last_updated k })
    else
      match s.cache_value key with
      | some v => (.ok v, s)
      | none => (.error (.keyError "cache"), s)

/-! ### `BgEngine.task_data` (the computation wrapped by
`at_most_once_per_cycle`) -/

/-- `gc3libs.Run.State` values (strings in the source library). -/
inductive RunState
  | NEW
  | SUBMITTED
  | RUNNING
  | STOPPED
  | TERMINATING
  | TERMINATED
  | UNKNOWN
  deriving Repr, DecidableEq

/-- The string value of a `gc3libs.Run.State` constant. -/
def stateName : RunState → String
  | .NEW => "NEW"
  | .SUBMITTED => "SUBMITTED"
  | .RUNNING => "RUNNING"
  | .STOPPED => "STOPPED"
  | .TERMINATING => "TERMINATING"
  | .TERMINATED => "TERMINATED"
  | .UNKNOWN => "UNKNOWN"

/-- A task's `.execution` object: current state, exit code (`None` until the
task finishes) and the timestamp dict recording when each state was first
entered (`time.time()` floats). -/
structure Execution where
  state : RunState
  exitcode : Option Int
  timestamp : List (RunState × ℚ)
  deriving Repr, DecidableEq

/-- The shape of a task as discriminated by `task_data`'s `isinstance`
chain: a `gc3libs.workflow.TaskCollection` (with its `.tasks` children), a
plain `gc3libs.Task` leaf (with `.requested_walltime.amount()`, which is
`None` when no walltime was requested), or any other class. -/
inductive TaskKind
  | collection (children : List Execution)
  | leaf (requested_walltime : Option ℚ)
  | other
  deriving Repr, DecidableEq

/-- A GC3Pie task as consumed by `BgEngine.task_data`. -/
structure GTask where
  jobname : String
  execution : Execution
  persistent_id : Option String
  kind : TaskKind
  deriving Repr, DecidableEq

/-- The dict built by `BgEngine.task_data`. -/
structure TaskData where
  name : String
  state : RunState
  is_live : Bool
  is_done : Bool
  failed : Bool
  percent_done : Option ℚ
  id : Option String
  deriving Repr, DecidableEq

/-- `BgEngine.task_data(self, task, monitoring_depth=2)` (the function
wrapped by `at_most_once_per_cycle`; `monitoring_depth` is unused in the
body):

* `is_live` — `state in (SUBMITTED, RUNNING, STOPPED)`;
* `is_done` — `state in TERMINATED`: since both operands are strings this
  is Python substring containment, modelled literally;
* `failed` — `is_done and task.execution.exitcode != 0` (an exit code of
  `None` also counts as non-zero);
* `id` — only present when the task has a `persistent_id` attribute;
* `percent_done` — only computed when `RUNNING` occurs among the
  execution timestamps: for a collection it is
  `done / len(task.tasks)` (Python 2 integer division; an empty collection
  raises `ZeroDivisionError`), for a leaf task it is
  `100.0 * (time.time() - timestamp[RUNNING]) / requested_walltime`
  (missing walltime raises `AttributeError`, zero walltime raises
  `ZeroDivisionError`), and any other task class raises
  `NotImplementedError`. -/
def task_data (now : ℚ) (task : GTask) : Except PyError TaskData :=
  let is_live := [RunState.SUBMITTED, RunState.RUNNING, RunState.STOPPED]
  let is_done := RunState.TERMINATED
  let failed := decide (task.execution.exitcode ≠ some 0)
  let done_b :=
    decide ((stateName task.execution.state).toList <:+: (stateName is_done).toList)
  let data : TaskData :=
    { name := task.jobname
      state := task.execution.state
      is_live := decide (task.execution.state ∈ is_live)
      is_done := done_b
      failed := done_b && failed
      percent_done := none
      id := task.persistent_id }
  match task.execution.timestamp.lookup RunState.RUNNING with
  | none => .ok data
  | some running_ts =>
    match task.kind with
    | .collection children =>
        let done := (children.filter (fun c => c.state = RunState.TERMINATED)).length
        if children.length = 0 then .error .zeroDivisionError
        else .ok { data with
          percent_done := some ((done / children.length : ℕ) : ℚ) }
    | .leaf none => .error (.attributeError "requested_walltime")
    | .leaf (some walltime) =>
        let runtime := now - running_ts
        if walltime = 0 then .error .zeroDivisionError
        else .ok { data with percent_done := some (100 * runtime / walltime) }
    | .other =>
        .error (.notImplementedError "Unhandled task class")

end TmLib.BgEngine

namespace TmLib.Workflow

/-! ## `src/tmlib/workflow/description.py` — `WorkflowDescription.add_stage` -/

/-- The dependency declaration for a workflow type, as returned by the
(external, registry-supplied) `get_workflow_dependencies(type)`:
declared stage names `STAGES`, steps per stage `STEPS_PER_STAGE`, and the
required-upstream-stage map `INTER_STAGE_DEPENDENCIES`.  The canonical
declarations build these maps as `collections.defaultdict`, so indexing a
stage that declares no dependencies yields the empty collection; key
membership (`name in INTER_STAGE_DEPENDENCIES`) is the association-list
key set. -/
structure WorkflowDependencies where
  STAGES : List String
  STEPS_PER_STAGE : List (String × List String)
  INTER_STAGE_DEPENDENCIES : List (String × List String)

/-- A `WorkflowStageDescription` as far as `add_stage` consults it: its
`name` and the names of its `steps`. -/
structure StageDesc where
  name : String
  steps : List String
  deriving Repr, DecidableEq

/-- `WorkflowDescription.add_stage(self, stage_description)` acting on the
current `self.stages` list.  Check order as in the source:

1. a stage of the same name already exists → `WorkflowDescriptionError`;
2. the name is not among the declared `STAGES` → `WorkflowDescriptionError`;
3. a step not declared in `STEPS_PER_STAGE[name]` → `WorkflowDescriptionError`;
4. the warning loop over `INTER_STAGE_DEPENDENCIES[name]`: for a declared
   upstream dependency not yet present the source executes
   `logger.warning(...)` — but the module `tmlib/workflow/description.py`
   never defines or imports `logger`, so reaching this branch raises
   `NameError` at runtime;
5. an existing stage that declares the new stage as a required upstream →
   `WorkflowDescriptionError` (dependency order must be respected);
6. a re-check of the step names (unreachable after step 3);
7. otherwise the stage is appended. -/
def add_stage (deps : WorkflowDependencies) (stages : List StageDesc)
    (sd : StageDesc) : Except PyError (List StageDesc) := do
  if stages.any (fun stage => stage.name == sd.name) then
    throw (.workflowDescriptionError
      ("Stage \x22" ++ sd.name ++ "\x22 already exists."))
  if ¬ deps.STAGES.contains sd.name then
    throw (.workflowDescriptionError ("Unknown stage \x22" ++ sd.name ++ "\x22."))
  let implemented_steps := (deps.STEPS_PER_STAGE.lookup sd.name).getD []
  match sd.steps.find? (fun step => !(implemented_steps.contains step)) with
  | some step =>
      throw (.workflowDescriptionError
        ("Unknown step \x22" ++ step ++ "\x22 for stage \x22" ++ sd.name ++ "\x22."))
  | none => pure ()
  let stage_names := stages.map (fun stage => stage.name)
  if (deps.INTER_STAGE_DEPENDENCIES.lookup sd.name).isSome then
    if ((deps.INTER_STAGE_DEPENDENCIES.lookup sd.name).getD []).any
        (fun dep => !(stage_names.contains dep)) then
      throw (.nameError "name logger is not defined")
  match stage_names.find? (fun name =>
      ((deps.INTER_STAGE_DEPENDENCIES.lookup name).getD []).contains sd.name) with
  | some name =>
      throw (.workflowDescriptionError
        ("Stage \x22" ++ sd.name ++ "\x22 must be upstream of stage \x22"
          ++ name ++ "\x22."))
  | none => pure ()
  match sd.steps.find? (fun step => !(implemented_steps.contains step)) with
  | some _ =>
      throw (.workflowDescriptionError "Stage requires the following steps")
  | none => pure ()
  return stages ++ [sd]

/-- The dependency declaration of claim C3's scenario: stage `analysis`
requires stage `upload` upstream. -/
def demoDeps : WorkflowDependencies where
  STAGES := ["upload", "analysis"]
  STEPS_PER_STAGE := [("upload", ["up1"]), ("analysis", ["an1"])]
  INTER_STAGE_DEPENDENCIES := [("analysis", ["upload"])]

end TmLib.Workflow

namespace TmLib.Tile

/-! ## `src/tmlib/models/tile.py` — `ChannelLayerTile` persistence -/

/-- Composite primary key of the `channel_layer_tiles` table:
`PrimaryKeyConstraint('y', 'channel_layer_id', 'z', 'x')`. -/
structure TileKey where
  y : Int
  channel_layer_id : Int
  z : Int
  x : Int
  deriving Repr, DecidableEq

/-- One stored row: the composite key plus the JPEG-encoded pixel blob
(`pixels BYTEA`), abstracted as an opaque numeric blob id. -/
structure TileRow where
  key : TileKey
  pixels : Nat
  deriving Repr, DecidableEq

/-- `ChannelLayerTile.add(cls, connection, tile)` — the semantics of the
raw statement it issues against the table:

```sql
INSERT INTO channel_layer_tiles AS t (channel_layer_id, z, y, x, pixels)
VALUES (...)
ON CONFLICT ON CONSTRAINT channel_layer_tiles_pkey
DO UPDATE SET pixels = ...
```

insert the row; on a primary-key conflict, update only the `pixels`
column of the conflicting row. -/
def add (table : List TileRow) (tile : TileRow) : List TileRow :=
  if table.any (fun r => r.key == tile.key) then
    table.map (fun r =>
      if r.key == tile.key then { r with pixels := tile.pixels } else r)
  else table ++ [tile]

/-- One plain `INSERT INTO channel_layer_tiles ... VALUES (...)` as issued
per tile by `ChannelLayerTile.add_multiple` — no conflict handling, so a
row whose primary key already exists violates `channel_layer_tiles_pkey`
and raises. -/
def insertTile (table : List TileRow) (tile : TileRow) :
    Except PyError (List TileRow) :=
  if table.any (fun r => r.key == tile.key) then
    .error (.uniqueViolation
      "duplicate key value violates unique constraint channel_layer_tiles_pkey")
  else .ok (table ++ [tile])

/-- `ChannelLayerTile.add_multiple(cls, connection, tiles)`: one plain
insert per tile, in order; the first failure propagates. -/
def add_multiple (table : List TileRow) : List TileRow → Except PyError (List TileRow)
  | [] => .ok table
  | tile :: rest =>
      match insertTile table tile with
      | .error e => .error e
      | .ok table' => add_multiple table' rest

end TmLib.Tile

namespace TmLib.Cfg

/-! ## `src/src/tmlib/cfg.py` — `UserConfiguration` -/

/-- The legacy `WorkflowDescription` (module `tmlib.tmaps.workflow`, not
among the provided sources) kept opaque: claim C9 needs only that
`UserConfiguration.__iter__` expands a stored workflow with `dict(value)`,
so the object is identified with its dict expansion. -/
structure WorkflowDescription where
  asDict : List (String × String)
  deriving Repr, DecidableEq

/-- A Python value as it occurs in `cfg_settings` or in the pairs yielded
by `UserConfiguration.__iter__`. -/
inductive CfgVal
  | str (s : String)
  | int (n : Int)
  | dict (d : List (String × String))
  | noneV
  deriving Repr, DecidableEq

/-- Modelled from the spec: `Plate.SUPPORTED_PLATE_FORMATS` of the legacy
`tmlib.plate` module is not among the provided sources; the spec fixes the
supported plate-format set as `{1, 96, 384}`. -/
def SUPPORTED_PLATE_FORMATS : List Int := [1, 96, 384]

/-- `UserConfiguration._PERSISTENT_ATTRS`. -/
def PERSISTENT_ATTRS : List String :=
  ["sources_dir", "plates_dir", "layers_dir", "plate_format", "workflow"]

/-- The instance state of a `UserConfiguration`: `_sources_dir`,
`_plates_dir`, `_layers_dir` are set to `None` in `__init__`;
`_plate_format` and `_workflow` only come into existence when the
corresponding property setter runs (reading them before that raises
`AttributeError`), modelled as `Option` fields starting at `none`. -/
structure UserConfiguration where
  experiment_dir : String
  sources_dir_ : Option String
  plates_dir_ : Option String
  layers_dir_ : Option String
  plate_format_ : Option Int
  workflow_ : Option WorkflowDescription
  deriving Repr, DecidableEq

/-- `sources_dir` property setter (must be a string or `None`; note the
source's error message says `plates_dir` — copied verbatim). -/
def set_sources_dir (u : UserConfiguration) (v : CfgVal) :
    Except PyError UserConfiguration :=
  match v with
  | .str s => .ok { u with sources_dir_ := some s }
  | .noneV => .ok { u with sources_dir_ := none }
  | _ => .error (.typeError "Attribute \x22plates_dir\x22 must have type str")

/-- `plates_dir` property setter. -/
def set_plates_dir (u : UserConfiguration) (v : CfgVal) :
    Except PyError UserConfiguration :=
  match v with
  | .str s => .ok { u with plates_dir_ := some s }
  | .noneV => .ok { u with plates_dir_ := none }
  | _ => .error (.typeError "Attribute \x22plates_dir\x22 must have type str")

/-- `layers_dir` property setter. -/
def set_layers_dir (u : UserConfiguration) (v : CfgVal) :
    Except PyError UserConfiguration :=
  match v with
  | .str s => .ok { u with layers_dir_ := some s }
  | .noneV => .ok { u with layers_dir_ := none }
  | _ => .error (.typeError "Attribute \x22layers_dir\x22 must have type str")

/-- `plate_format` property setter: requires an `int` in
`Plate.SUPPORTED_PLATE_FORMATS`. -/
def set_plate_format (u : UserConfiguration) (v : CfgVal) :
    Except PyError UserConfiguration :=
  match v with
  | .int n =>
      if n ∈ SUPPORTED_PLATE_FORMATS then .ok { u with plate_format_ := some n }
      else .error (.valueError "Attribute \x22plate_format\x22 can be set to")
  | _ => .error (.typeError "Attribute \x22plate_format\x22 must have type int")

/-- `workflow` property setter: in `__init__` the raw mapping is first
parsed with `WorkflowDescription(**v)` (opaque construction keeping the
mapping), so only a mapping value is accepted here. -/
def set_workflow (u : UserConfiguration) (v : CfgVal) :
    Except PyError UserConfiguration :=
  match v with
  | .dict d => .ok { u with workflow_ := some ⟨d⟩ }
  | _ => .error (.typeError "Attribute \x22workflow\x22 must have type WorkflowDescription")

/-- `setattr(self, k, v)` for a whitelisted key dispatches to the
property setter of that name. -/
def setattr (u : UserConfiguration) (k : String) (v : CfgVal) :
    Except PyError UserConfiguration :=
  if k == "sources_dir" then set_sources_dir u v
  else if k == "plates_dir" then set_plates_dir u v
  else if k == "layers_dir" then set_layers_dir u v
  else if k == "plate_format" then set_plate_format u v
  else if k == "workflow" then set_workflow u v
  else .ok u

/-- The `for k, v in cfg_settings.iteritems()` loop of
`UserConfiguration.__init__`: whitelisted keys are set via their property
setters, all other keys are silently ignored. -/
def applySettings : UserConfiguration → List (String × CfgVal) →
    Except PyError UserConfiguration
  | u, [] => .ok u
  | u, (k, v) :: rest =>
      if k ∈ PERSISTENT_ATTRS then
        match setattr u k v with
        | .error e => .error e
        | .ok u' => applySettings u' rest
      else applySettings u rest

/-- `UserConfiguration.__init__(self, experiment_dir, cfg_settings)`.
The on-disk existence check of `experiment_dir` is an I/O effect outside
the model. -/
def init (experiment_dir : String) (cfg_settings : List (String × CfgVal)) :
    Except PyError UserConfiguration :=
  applySettings
    { experiment_dir := experiment_dir
      sources_dir_ := none
      plates_dir_ := none
      layers_dir_ := none
      plate_format_ := none
      workflow_ := none }
    cfg_settings

/-- `sources_dir` property getter: defaults to the `sources` subdirectory
of the experiment directory when unset (the source also caches that
default back into `_sources_dir`; the returned value is the same). -/
def sources_dir (u : UserConfiguration) : String :=
  (u.sources_dir_).getD (u.experiment_dir ++ "/sources")

/-- `plates_dir` property getter (defaults to `plates`). -/
def plates_dir (u : UserConfiguration) : String :=
  (u.plates_dir_).getD (u.experiment_dir ++ "/plates")

/-- `layers_dir` property getter (defaults to `layers`). -/
def layers_dir (u : UserConfiguration) : String :=
  (u.layers_dir_).getD (u.experiment_dir ++ "/layers")

/-- `UserConfiguration.__iter__`: iterates `dir(self)` — a sorted list of
attribute names, of which exactly the five whitelisted property names are
in `_PERSISTENT_ATTRS`, in sorted order `layers_dir, plate_format,
plates_dir, sources_dir, workflow` — and for each one first evaluates
`hasattr(self, attr)` (which invokes the property getter: `plate_format`
and `workflow` raise `AttributeError` when never set, upon which
`__iter__` itself raises `AttributeError`), then yields `(attr,
getattr(self, attr))`, with `workflow` expanded as `dict(value)`. -/
def iter (u : UserConfiguration) : Except PyError (List (String × CfgVal)) :=
  match u.plate_format_ with
  | none =>
      .error (.attributeError
        "\x22UserConfiguration\x22 object has no attribute \x22plate_format\x22")
  | some pf =>
      match u.workflow_ with
      | none =>
          .error (.attributeError
            "\x22UserConfiguration\x22 object has no attribute \x22workflow\x22")
      | some w =>
          .ok
            [("layers_dir", .str (layers_dir u)),
             ("plate_format", .int pf),
             ("plates_dir", .str (plates_dir u)),
             ("sources_dir", .str (sources_dir u)),
             ("workflow", .dict w.asDict)]

end TmLib.Cfg

namespace TmLib.Imextract

/-! ## `src/tmlib/workflow/imextract/api.py` — `ImageExtractor.create_batches` -/

/-- Modelled from the spec: `ClusterRoutines._create_batches` is defined in
`tmlib/workflow/api.py`, which is not among the provided sources.  Per the
spec (§4.10), the per-site mapping groups are chunked into batches no
larger than `batch_size`, but a batch never splits the mappings belonging
to one site — all mappings for a site must land in the same job.  Site
groups are therefore packed whole, greedily and in order: a group is added
to the current batch while the total mapping count stays within
`batch_size`, otherwise a new batch is started; a single site whose
mappings alone exceed `batch_size` forms its own (oversized) batch.
`cur` is the current batch (reversed) and `sz` its total mapping count. -/
def packAux (n : Nat) (cur : List (List Nat)) (sz : Nat) :
    List (List Nat) → List (List (List Nat))
  | [] => if cur = [] then [] else [cur.reverse]
  | g :: rest =>
      if cur = [] then packAux n [g] g.length rest
      else if sz + g.length ≤ n then packAux n (g :: cur) (sz + g.length) rest
      else cur.reverse :: packAux n [g] g.length rest

/-- Modelled from the spec: top-level entry of `_create_batches` on the
per-site groups. -/
def packGroups (n : Nat) (groups : List (List Nat)) : List (List (List Nat)) :=
  packAux n [] 0 groups

/-- One `run` job description produced by `ImageExtractor.create_batches`:
the 1-based job `id`, the flattened mapping-record ids
(`'image_file_mapping_ids': ids` with `ids = list(np.array(batch).flat)`),
and the `mip` flag from `args`.  The `inputs` raw-file paths (resolved per
mapping) and the final `collect` entry (carrying `args.delete`) do not
affect which mapping lands in which job and are elided. -/
structure RunJob where
  id : Nat
  image_file_mapping_ids : List Nat
  mip : Bool
  deriving Repr, DecidableEq

/-- `ImageExtractor.create_batches(self, args)`, given the result of the
`session.query(site_id, array_agg(id)).group_by(site_id)` query as the
list of per-site mapping-id groups (each group nonempty by construction,
ids globally distinct): chunk the groups with `_create_batches`, flatten
each batch into one `run` job. -/
def create_batches (file_mappings_per_site : List (List Nat))
    (batch_size : Nat) (mip : Bool) : List RunJob :=
  (packGroups batch_size file_mappings_per_site).enum.map
    (fun p =>
      { id := p.1 + 1, image_file_mapping_ids := p.2.flatten, mip := mip })

/-- The claim's reading of the batching invariant: no run job combines
mapping records from two different sites. -/
def noJobCombinesSites (groups : List (List Nat)) (jobs : List RunJob) : Prop :=
  ∀ j ∈ jobs, ∀ g1 ∈ groups, ∀ g2 ∈ groups, g1 ≠ g2 →
    ¬((∃ a ∈ g1, a ∈ j.image_file_mapping_ids) ∧
      (∃ b ∈ g2, b ∈ j.image_file_mapping_ids))

/-- The claim's reading of the chunking bound: every run job carries at
most `batch_size` mapping records. -/
def batchesWithinLimit (jobs : List RunJob) (batch_size : Nat) : Prop :=
  ∀ j ∈ jobs, j.image_file_mapping_ids.length ≤ batch_size

end TmLib.Imextract

namespace TmLib.Imageutil

/-! ## `src/tmt/imageutil.py` — `hist_sample_from_sites` -/

/-- Elementwise accumulation `hist += h` into the `uint32` accumulator
array: unsigned 32-bit wrap-around addition. -/
def uadd (a b : Nat) : Nat := (a + b) % 2 ^ 32

/-- `hist_sample_from_sites(filenames, nr_to_sample=5)`:

```python
files = rand.sample(filenames, nr_to_sample)
hist = np.zeros((256,), dtype='uint32')
for f in files:
    mat = imread(f)
    scaled = bytescale(mat)
    h = np.histogram(scaled, 256)[0]
    hist += h
hist /= len(files)
return hist
```

`histOf f` abstracts `np.histogram(bytescale(imread(f)), 256)[0]`, the
256-bin histogram of the byte-rescaled image (one `Nat` per bin).
`sampled` is the outcome of the random draw `rand.sample(filenames,
nr_to_sample)`; per the Python standard library contract, `rand.sample`
raises `ValueError` when the sample size exceeds the population size —
before any file is read — and otherwise returns `nr_to_sample` elements
chosen at distinct positions of `filenames`.  `hist /= len(files)` on the
`uint32` array is integer-truncating division. -/
def hist_sample_from_sites (histOf : String → List Nat)
    (filenames : List String) (nr_to_sample : Nat) (sampled : List String) :
    Except PyError (List Nat) :=
  if nr_to_sample ≤ filenames.length then
    let hist := sampled.foldl
      (fun h f => List.zipWith uadd h (histOf f)) (List.replicate 256 0)
    .ok (hist.map (fun x => x / sampled.length))
  else
    .error (.valueError "sample larger than population")

end TmLib.Imageutil

namespace TmLib

/-! ### Theorems about `Plate.status` and `map_logging_verbosity` -/

open FileUploadStatus

theorem plate_status_eq (acqs : List FileUploadStatus) :
    Plate.status acqs =
      if UPLOADING ∈ acqs.dedup then UPLOADING
      else if acqs.dedup.length = 1 ∧ COMPLETE ∈ acqs.dedup then COMPLETE
      else WAITING := rfl

theorem plate_status_uploading (acqs : List FileUploadStatus)
    (h : UPLOADING ∈ acqs) : Plate.status acqs = UPLOADING := by
  simp [Plate.status, List.mem_dedup, h]

theorem plate_status_complete_iff (acqs : List FileUploadStatus) :
    Plate.status acqs = COMPLETE ↔
      acqs ≠ [] ∧ ∀ s ∈ acqs, s = COMPLETE := by
  unfold Plate.status
  by_cases hup : UPLOADING ∈ acqs.dedup
  · simp only [if_pos hup]
    rw [List.mem_dedup] at hup
    constructor
    · intro h; cases h
    · rintro ⟨-, hall⟩
      exact absurd (hall _ hup) (by simp)
  · simp only [if_neg hup]
    by_cases hc : acqs.dedup.length = 1 ∧ COMPLETE ∈ acqs.dedup
    · simp only [if_pos hc]
      obtain ⟨hlen, hmem⟩ := hc
      constructor
      · intro _
        have hne : acqs ≠ [] := by
          intro h; subst h; simp at hmem
        refine ⟨hne, fun s hs => ?_⟩
        have hsd : s ∈ acqs.dedup := List.mem_dedup.mpr hs
        -- a list of length one has a single element
        obtain ⟨a, ha⟩ := List.length_eq_one.mp hlen
        rw [ha] at hsd hmem
        simp at hsd hmem
        rw [hsd, hmem]
      · intro _; trivial
    · simp only [if_neg hc]
      constructor
      · intro h; cases h
      · rintro ⟨hne, hall⟩
        exfalso
        apply hc
        have hmem : COMPLETE ∈ acqs.dedup := by
          rw [List.mem_dedup]
          obtain ⟨a, as, rfl⟩ := List.exists_cons_of_ne_nil hne
          have := hall a (by simp)
          rw [← this]; simp
        refine ⟨?_, hmem⟩
        have hsub : acqs.dedup ⊆ [COMPLETE] := by
          intro s hs
          rw [List.mem_dedup] at hs
          simp [hall s hs]
        have hnd : acqs.dedup.Nodup := List.nodup_dedup acqs
        have hle : acqs.dedup.length ≤ 1 := by
          simpa using (List.subperm_of_subset hnd hsub).length_le
        have hpos : 0 < acqs.dedup.length := by
          exact List.length_pos.mpr (by
            intro h
            rw [h] at hmem
            simp at hmem)
        omega

theorem plate_status_cases (acqs : List FileUploadStatus) :
    Plate.status acqs = UPLOADING ∨ Plate.status acqs = COMPLETE ∨
      Plate.status acqs = WAITING := by
  rw [plate_status_eq]
  split_ifs <;> simp

theorem plate_status_uploading_only_if (acqs : List FileUploadStatus)
    (h : UPLOADING ∉ acqs) : Plate.status acqs ≠ UPLOADING := by
  rw [plate_status_eq]
  have h' : UPLOADING ∉ acqs.dedup := fun hc => h (List.mem_dedup.mp hc)
  rw [if_neg h']
  split_ifs <;> simp

/-- **C7**: for every plate, the derived status is `UPLOADING` if at least one
child acquisition has status `UPLOADING`; it is `COMPLETE` iff the plate has
at least one acquisition and every child acquisition is `COMPLETE`; in every
other case (no acquisitions, or a mix of `WAITING`/`COMPLETE`) the status is
`WAITING`. -/
theorem C7_plate_status_aggregation (acqs : List FileUploadStatus) :
    (UPLOADING ∈ acqs → Plate.status acqs = UPLOADING) ∧
    (Plate.status acqs = COMPLETE ↔ acqs ≠ [] ∧ ∀ s ∈ acqs, s = COMPLETE) ∧
    (UPLOADING ∉ acqs → ¬(acqs ≠ [] ∧ ∀ s ∈ acqs, s = COMPLETE) →
      Plate.status acqs = WAITING) := by
  refine ⟨plate_status_uploading acqs, plate_status_complete_iff acqs, ?_⟩
  intro hnu hnc
  rcases plate_status_cases acqs with h | h | h
  · exact absurd h (plate_status_uploading_only_if acqs hnu)
  · exact absurd ((plate_status_complete_iff acqs).mp h) hnc
  · exact h

/-- Witness for C7 at concrete inputs: a mixed `WAITING`/`COMPLETE` plate is
`WAITING`, obtained by applying the claim's theorem. -/
theorem C7_plate_status_aggregation_witness :
    Plate.status [WAITING, COMPLETE] = WAITING :=
  (C7_plate_status_aggregation [WAITING, COMPLETE]).2.2 (by decide) (by decide)

/-- **C8**: `map_logging_verbosity` maps verbosity `0 ↦ WARN`, `1 ↦ INFO`,
`2 ↦ DEBUG`, `3 ↦ NOTSET` (unfiltered); every negative verbosity fails with
an error; every verbosity greater than `3` yields the same level as
verbosity `3`. -/
theorem C8_map_logging_verbosity_table :
    map_logging_verbosity 0 = .ok logging_WARN ∧
    map_logging_verbosity 1 = .ok logging_INFO ∧
    map_logging_verbosity 2 = .ok logging_DEBUG ∧
    map_logging_verbosity 3 = .ok logging_NOTSET ∧
    (∀ v : Int, v < 0 → map_logging_verbosity v =
      .error (.valueError
        "Argument \x22verbosity\x22 must be a positive number.")) ∧
    (∀ v : Int, 3 < v → map_logging_verbosity v = map_logging_verbosity 3) := by
  refine ⟨rfl, rfl, rfl, rfl, ?_, ?_⟩
  · intro v hv
    unfold map_logging_verbosity
    rw [if_pos (by omega)]
  · intro v hv
    by_cases h4 : v > 4
    · have hlen : (VERBOSITY_TO_LEVELS.length : Int) = 4 := by
        simp [VERBOSITY_TO_LEVELS]
      unfold map_logging_verbosity
      rw [if_neg (by omega)]
      simp only [hlen]
      rw [if_pos (by omega)]
      rfl
    · have : v = 4 := by omega
      subst this
      rfl

/-- Witness for C8: the negative case at `-1` and the clamping case at
`10`, obtained by applying the claim's theorem. -/
theorem C8_map_logging_verbosity_table_witness :
    map_logging_verbosity (-1) =
      .error (.valueError
        "Argument \x22verbosity\x22 must be a positive number.") ∧
    map_logging_verbosity 10 = map_logging_verbosity 3 :=
  ⟨C8_map_logging_verbosity_table.2.2.2.2.1 (-1) (by norm_num),
   C8_map_logging_verbosity_table.2.2.2.2.2 10 (by norm_num)⟩

end TmLib

namespace TmLib.BgEngine

/-! ### Theorems about `BgEngine` (claims C1, C5, C6) -/

theorem issue_spec (c : ProxyCall) (s : BgState) :
    issue c s = { s with q := s.q ++ [toEngineOp c] } := by
  cases c <;> rfl

theorem issueAll_spec (cs : List ProxyCall) (s : BgState) :
    issueAll cs s = { s with q := s.q ++ cs.map toEngineOp } := by
  induction cs generalizing s with
  | nil => simp [issueAll]
  | cons c cs ih =>
      show issueAll cs (issue c s) = _
      rw [ih, issue_spec]
      simp

theorem execFold_spec (invoke : EngineOp → Except String Unit)
    (q : List EngineOp) (st : BgState) :
    q.foldl (execOp invoke) st =
      { st with
        received := st.received ++ q
        errorLog := st.errorLog ++ q.filter (fun op => isFailure (invoke op)) } := by
  induction q generalizing st with
  | nil => simp
  | cons op q ih =>
      show q.foldl (execOp invoke) (execOp invoke st op) = _
      rw [ih]
      cases h : invoke op <;>
        simp [execOp, isFailure, h, List.filter_cons]

theorem perform_spec (invoke : EngineOp → Except String Unit)
    (progressResult : Except String Unit) (now : ℚ) (s : BgState) :
    perform invoke progressResult now s =
      { s with
        q := []
        received := s.received ++ s.q
        errorLog := s.errorLog ++ s.q.filter (fun op => isFailure (invoke op))
        progress_last_run :=
          match progressResult with
          | .ok _ => now
          | .error _ => s.progress_last_run } := by
  simp only [perform]
  rw [execFold_spec]
  cases progressResult <;> rfl

/-- **C1**: for any sequence of mutating proxy calls issued to a `BgEngine`
before any perform cycle has run, after exactly one perform cycle the
wrapped engine has received all the corresponding calls in the same
relative order as they were enqueued, the pending queue is empty, and a
failure raised by any dequeued operation (any `invoke` outcome, any
`progress()` outcome) does not prevent the execution of the operations
enqueued after it — every call is received and only the failing ones are
logged. -/
theorem C1_bgengine_enqueue_drain (cs : List ProxyCall)
    (invoke : EngineOp → Except String Unit)
    (progressResult : Except String Unit) (now : ℚ) :
    (perform invoke progressResult now (issueAll cs initState)).received
      = cs.map toEngineOp ∧
    (perform invoke progressResult now (issueAll cs initState)).q = [] ∧
    (perform invoke progressResult now (issueAll cs initState)).errorLog
      = (cs.map toEngineOp).filter (fun op => isFailure (invoke op)) := by
  rw [issueAll_spec, perform_spec]
  simp [initState]

end TmLib.BgEngine

namespace TmLib.BgEngine

/-- **C5**: for the read-side operations wrapped in
`at_most_once_per_cycle` (`stats_data`, `all_tasks_data`, `task_data`,
`task_and_children_data`): (1) before the very first successful progress
cycle (`_progress_last_run` still `0`) every call recomputes and nothing is
cached; (2) with a completed progress cycle, a stale entry (produced before
the most recent cycle) is recomputed and re-cached at the call time; (3) a
cached result produced at or after the most recent completed progress cycle
is reused verbatim, with no recomputation and no state change; (4) the memo
is per call signature — a call with one key never touches another key's
entry; (5) once a new progress cycle completes (via `_perform` with a
successful `progress()` at time `p`), the next call with a
previously-cached signature recomputes. -/
theorem C5_read_side_caching
    (fn : CacheKey → ℚ → Nat) (key : CacheKey) (now : ℚ) (s : BgState) :
    (s.progress_last_run = 0 → cachedRead fn key now s = (.ok (fn key now), s)) ∧
    (s.progress_last_run ≠ 0 →
      s.cache_last_updated key < s.progress_last_run →
      (cachedRead fn key now s).1 = .ok (fn key now) ∧
      (cachedRead fn key now s).2.cache_value key = some (fn key now) ∧
      (cachedRead fn key now s).2.cache_last_updated key = now) ∧
    (∀ v, s.progress_last_run ≠ 0 →
      ¬ s.cache_last_updated key < s.progress_last_run →
      s.cache_value key = some v →
      cachedRead fn key now s = (.ok v, s)) ∧
    (∀ k', k' ≠ key →
      (cachedRead fn key now s).2.cache_value k' = s.cache_value k' ∧
      (cachedRead fn key now s).2.cache_last_updated k' = s.cache_last_updated k') ∧
    (∀ invoke p, s.cache_last_updated key < p → p ≠ 0 →
      (cachedRead fn key now (perform invoke (.ok ()) p s)).1 = .ok (fn key now)) := by
  refine ⟨?_, ?_, ?_, ?_, ?_⟩
  · intro h0
    unfold cachedRead
    rw [if_pos h0]
  · intro hne hstale
    unfold cachedRead
    rw [if_neg hne, if_pos hstale]
    simp
  · intro v hne hfresh hv
    unfold cachedRead
    rw [if_neg hne, if_neg hfresh, hv]
  · intro k' hk
    unfold cachedRead
    split_ifs
    · exact ⟨rfl, rfl⟩
    · simp [hk]
    · rcases h : s.cache_value key with _ | v <;> simp [h]
  · intro invoke p hstale hp
    rw [perform_spec]
    unfold cachedRead
    simp only
    rw [if_neg hp, if_pos hstale]

/-- Witness for C5, applying the claim's theorem at concrete inputs:
with a completed progress cycle at time `1` and a value `7` cached at time
`1` under key `(0, [])`, a call at time `2` returns the cached `7` and
leaves the state untouched. -/
theorem C5_read_side_caching_witness :
    cachedRead (fun _ _ => 5) (0, []) 2
      { q := [], received := [], errorLog := [], progress_last_run := 1,
        cache_last_updated := fun _ => 1, cache_value := fun _ => some 7 }
      = (.ok 7,
        { q := [], received := [], errorLog := [], progress_last_run := 1,
          cache_last_updated := fun _ => 1, cache_value := fun _ => some 7 }) :=
  (C5_read_side_caching (fun _ _ => 5) (0, []) 2
    { q := [], received := [], errorLog := [], progress_last_run := 1,
      cache_last_updated := fun _ => 1,
      cache_value := fun _ => some 7 }).2.2.1 7
    (by norm_num) (by norm_num) rfl

end TmLib.BgEngine

namespace TmLib.BgEngine

/-- **C6**: for every task passed to `BgEngine.task_data`, `percent_done`
is computed only once the task has reached the running state at least once
(otherwise it stays `None`); for a task collection it equals
`(# terminated children) / (# children)` (Python 2 integer division); for a
single leaf task it equals `100 × (elapsed time since it started running) /
(its requested walltime)`; and any other task shape raises
`NotImplementedError` rather than defaulting silently. -/
theorem C6_task_data_percent_done (now : ℚ) (task : GTask) :
    (∀ ts, task.execution.timestamp.lookup RunState.RUNNING = some ts →
      (∀ children, task.kind = .collection children → children ≠ [] →
        ∃ d, task_data now task = .ok d ∧
          d.percent_done = some
            (((children.filter
              (fun c => c.state = RunState.TERMINATED)).length /
                children.length : ℕ) : ℚ)) ∧
      (∀ w, task.kind = .leaf (some w) → w ≠ 0 →
        ∃ d, task_data now task = .ok d ∧
          d.percent_done = some (100 * (now - ts) / w)) ∧
      (task.kind = .other →
        task_data now task = .error (.notImplementedError "Unhandled task class"))) ∧
    (task.execution.timestamp.lookup RunState.RUNNING = none →
      ∃ d, task_data now task = .ok d ∧ d.percent_done = none) := by
  constructor
  · intro ts hts
    refine ⟨?_, ?_, ?_⟩
    · intro children hkind hne
      have hlen : ¬ children.length = 0 := by
        simpa [List.length_eq_zero] using hne
      simp only [task_data, hts, hkind, if_neg hlen]
      exact ⟨_, rfl, rfl⟩
    · intro w hkind hw
      simp only [task_data, hts, hkind, if_neg hw]
      exact ⟨_, rfl, rfl⟩
    · intro hkind
      simp only [task_data, hts, hkind]
  · intro hnone
    simp only [task_data, hnone]
    exact ⟨_, rfl, rfl⟩

/-- Witness for C6, applying the claim's theorem at a concrete task: a
collection that has been running, with one of its two children terminated,
reports `percent_done = 1 / 2 = 0` (Python 2 integer division). -/
theorem C6_task_data_percent_done_witness :
    ∃ d, task_data 10
      { jobname := "job"
        execution :=
          { state := RunState.RUNNING, exitcode := none,
            timestamp := [(RunState.RUNNING, 5)] }
        persistent_id := some "42"
        kind := .collection
          [ { state := RunState.TERMINATED, exitcode := some 0, timestamp := [] },
            { state := RunState.RUNNING, exitcode := none, timestamp := [] } ] }
      = .ok d ∧ d.percent_done = some 0 := by
  obtain ⟨d, hd, hp⟩ :=
    (((C6_task_data_percent_done 10
      { jobname := "job"
        execution :=
          { state := RunState.RUNNING, exitcode := none,
            timestamp := [(RunState.RUNNING, 5)] }
        persistent_id := some "42"
        kind := .collection
          [ { state := RunState.TERMINATED, exitcode := some 0, timestamp := [] },
            { state := RunState.RUNNING, exitcode := none, timestamp := [] } ] }).1
      5 rfl).1)
      [ { state := RunState.TERMINATED, exitcode := some 0, timestamp := [] },
        { state := RunState.RUNNING, exitcode := none, timestamp := [] } ]
      rfl (by simp)
  refine ⟨d, hd, ?_⟩
  rw [hp]
  norm_num
  decide

end TmLib.BgEngine

namespace TmLib.Workflow

/-! ### Theorems about `WorkflowDescription.add_stage` (claim C3) -/

/-- **C3** (scenario of the claim, evaluated on the code): with a
dependency declaration in which stage `analysis` requires stage `upload`
upstream: (1) adding `analysis` to a workflow that does not yet contain
`upload` does **not** succeed with a warning — the warning branch raises
`NameError`, because `tmlib/workflow/description.py` calls
`logger.warning` without ever defining or importing `logger`; (2) adding
`upload` when `analysis` is already present fails with a
`WorkflowDescriptionError`; (3) adding `upload` first succeeds, and (4)
adding `analysis` afterwards succeeds. -/
theorem C3_add_stage_dependency_order :
    add_stage demoDeps [] ⟨"analysis", ["an1"]⟩ =
      .error (.nameError "name logger is not defined") ∧
    add_stage demoDeps [⟨"analysis", ["an1"]⟩] ⟨"upload", ["up1"]⟩ =
      .error (.workflowDescriptionError
        "Stage \x22upload\x22 must be upstream of stage \x22analysis\x22.") ∧
    add_stage demoDeps [] ⟨"upload", ["up1"]⟩ = .ok [⟨"upload", ["up1"]⟩] ∧
    add_stage demoDeps [⟨"upload", ["up1"]⟩] ⟨"analysis", ["an1"]⟩ =
      .ok [⟨"upload", ["up1"]⟩, ⟨"analysis", ["an1"]⟩] :=
  ⟨rfl, rfl, rfl, rfl⟩

end TmLib.Workflow

namespace TmLib.Tile

/-! ### Theorems about `ChannelLayerTile` persistence (claim C4) -/

theorem upd_key (t r : TileRow) :
    (if r.key == t.key then { r with pixels := t.pixels } else r).key = r.key := by
  split <;> rfl

theorem map_upd_filter (t : TileRow) (table : List TileRow) :
    (table.map TileRow.key).Nodup →
    table.any (fun r => r.key == t.key) = true →
    (table.map (fun r =>
        if r.key == t.key then { r with pixels := t.pixels } else r)).filter
      (fun r => r.key == t.key) = [⟨t.key, t.pixels⟩] := by
  induction table with
  | nil => intro _ h; simp at h
  | cons r rest ih =>
      intro hnd hany
      have hnd' : (rest.map TileRow.key).Nodup := (List.nodup_cons.mp hnd).2
      have hfresh : r.key ∉ rest.map TileRow.key := (List.nodup_cons.mp hnd).1
      simp only [List.map_cons]
      by_cases hr : (r.key == t.key) = true
      · have hkey : r.key = t.key := by simpa using hr
        have hrest : ∀ x ∈ rest, ¬((x.key == t.key) = true) := by
          intro x hx hxk
          apply hfresh
          have hxe : x.key = t.key := by simpa using hxk
          rw [hkey, ← hxe]
          exact List.mem_map_of_mem TileRow.key hx
        have hmaprest : rest.map (fun x =>
            if x.key == t.key then { x with pixels := t.pixels } else x) = rest := by
          conv_rhs => rw [← List.map_id rest]
          apply List.map_congr_left
          intro x hx
          rw [if_neg (hrest x hx)]
          rfl
        have hfilrest : rest.filter (fun x => x.key == t.key) = [] :=
          List.filter_eq_nil_iff.mpr hrest
        rw [if_pos hr, hmaprest, List.filter_cons]
        have hkeep : (({ r with pixels := t.pixels } : TileRow).key == t.key) = true := by
          simpa using hkey
        rw [if_pos hkeep, hfilrest]
        have : ({ r with pixels := t.pixels } : TileRow) = ⟨t.key, t.pixels⟩ := by
          cases r
          simp_all
        rw [this]
      · have hany' : rest.any (fun x => x.key == t.key) = true := by
          rcases List.any_eq_true.mp hany with ⟨x, hx, hxk⟩
          rcases List.mem_cons.mp hx with rfl | hx'
          · exact absurd hxk hr
          · exact List.any_eq_true.mpr ⟨x, hx', hxk⟩
        rw [if_neg hr, List.filter_cons]
        rw [if_neg (by simpa using hr)]
        exact ih hnd' hany'

theorem add_filter (table : List TileRow) (t : TileRow)
    (hnd : (table.map TileRow.key).Nodup) :
    (add table t).filter (fun r => r.key == t.key) = [⟨t.key, t.pixels⟩] := by
  unfold add
  split_ifs with h
  · exact map_upd_filter t table hnd h
  · have hnone : ∀ x ∈ table, ¬((x.key == t.key) = true) := by
      intro x hx hxk
      exact absurd (List.any_eq_true.mpr ⟨x, hx, hxk⟩) h
    rw [List.filter_append, List.filter_eq_nil_iff.mpr hnone]
    simp

theorem add_keys_nodup (table : List TileRow) (t : TileRow)
    (hnd : (table.map TileRow.key).Nodup) :
    ((add table t).map TileRow.key).Nodup := by
  unfold add
  split_ifs with h
  · have : (table.map (fun r =>
        if r.key == t.key then { r with pixels := t.pixels } else r)).map
          TileRow.key = table.map TileRow.key := by
      rw [List.map_map]
      apply List.map_congr_left
      intro x _
      exact upd_key t x
    rw [this]
    exact hnd
  · have hfresh : t.key ∉ table.map TileRow.key := by
      intro hmem
      rcases List.mem_map.mp hmem with ⟨x, hx, hxk⟩
      exact absurd
        (List.any_eq_true.mpr ⟨x, hx, show (x.key == t.key) = true by
          simpa using hxk⟩) h
    rw [List.map_append]
    simp only [List.map_cons, List.map_nil]
    rw [List.nodup_append]
    exact ⟨hnd, List.nodup_singleton _, by simpa [List.Disjoint] using hfresh⟩

theorem add_multiple_conflict (tiles : List TileRow) :
    ∀ (table : List TileRow) (t : TileRow), t ∈ tiles →
      (∃ r ∈ table, r.key = t.key) →
      ∃ e, add_multiple table tiles = .error e := by
  induction tiles with
  | nil => intro table t hmem _; simp at hmem
  | cons t0 rest ih =>
      intro table t hmem hconf
      unfold add_multiple
      rcases h0 : insertTile table t0 with e | table'
      · exact ⟨e, rfl⟩
      · rcases List.mem_cons.mp hmem with rfl | hmem'
        · exfalso
          obtain ⟨r, hr, hrk⟩ := hconf
          unfold insertTile at h0
          rw [if_pos (List.any_eq_true.mpr ⟨r, hr, by simpa using hrk⟩)] at h0
          cases h0
        · have htab : table' = table ++ [t0] := by
            unfold insertTile at h0
            split_ifs at h0
            exact (Except.ok.inj h0).symm
          obtain ⟨r, hr, hrk⟩ := hconf
          exact ih table' t hmem' ⟨r, by simp [htab, hr], hrk⟩

/-- **C4**: `ChannelLayerTile.add` twice with the same composite primary
key `(channel_layer_id, z, y, x)` but different payloads leaves exactly
one row for that key, holding the second payload (add is an idempotent
upsert updating only the pixel blob on conflict); `add_multiple` issues
plain inserts with no conflict handling, so any batch containing a tile
whose key already exists in the table fails — in particular a second
`add_multiple` with an overlapping key fails. -/
theorem C4_tile_upsert_vs_plain_insert (table : List TileRow)
    (t1 t2 : TileRow) (hk : t1.key = t2.key)
    (hnd : (table.map TileRow.key).Nodup) :
    (add (add table t1) t2).filter (fun r => r.key == t2.key) =
      [⟨t2.key, t2.pixels⟩] ∧
    (∀ tiles t, t ∈ tiles → (∃ r ∈ table, r.key = t.key) →
      ∃ e, add_multiple table tiles = .error e) ∧
    (∀ table', add_multiple table [t1] = .ok table' →
      ∃ e, add_multiple table' [t2] = .error e) := by
  refine ⟨?_, ?_, ?_⟩
  · exact add_filter (add table t1) t2 (add_keys_nodup table t1 hnd)
  · intro tiles t hmem hconf
    exact add_multiple_conflict tiles table t hmem hconf
  · intro table' hok
    have htab : table' = table ++ [t1] := by
      unfold add_multiple at hok
      rcases h0 : insertTile table t1 with e | tb
      · rw [h0] at hok; cases hok
      · rw [h0] at hok
        cases hok
        unfold insertTile at h0
        split_ifs at h0
        exact (Except.ok.inj h0).symm
    exact add_multiple_conflict [t2] table' t2 (by simp)
      ⟨t1, by simp [htab], hk⟩

/-- Witness for C4, applying the claim's theorem at concrete tiles: two
upserts under key `(0,0,0,0)` with payloads `1` then `2` leave exactly the
row with payload `2`. -/
theorem C4_tile_upsert_vs_plain_insert_witness :
    (add (add [] ⟨⟨0, 0, 0, 0⟩, 1⟩) ⟨⟨0, 0, 0, 0⟩, 2⟩).filter
      (fun r => r.key == (⟨⟨0, 0, 0, 0⟩, 2⟩ : TileRow).key) =
      [⟨⟨0, 0, 0, 0⟩, 2⟩] :=
  (C4_tile_upsert_vs_plain_insert [] ⟨⟨0, 0, 0, 0⟩, 1⟩ ⟨⟨0, 0, 0, 0⟩, 2⟩
    rfl (by simp)).1

end TmLib.Tile

namespace TmLib.Cfg

/-! ### Theorems about `UserConfiguration` (claim C9) -/

/-- **C9 counterexample**: the claim "regardless of which of the
whitelisted settings were supplied at construction, iterating the object
yields exactly the whitelisted keys" is false: constructing a
`UserConfiguration` that supplies only `sources_dir` succeeds, but
iterating it raises `AttributeError`, because the `plate_format` property
has no default and `__iter__` raises for whitelisted attributes that were
never set. -/
theorem C9_iter_counterexample :
    ∃ u, init "/experiment" [("sources_dir", CfgVal.str "/data/sources")] =
        .ok u ∧
      iter u = .error (.attributeError
        "\x22UserConfiguration\x22 object has no attribute \x22plate_format\x22") :=
  ⟨_, rfl, rfl⟩

theorem applySettings_filter (cfg : List (String × CfgVal)) :
    ∀ u : UserConfiguration,
      applySettings u cfg =
        applySettings u
          (cfg.filter (fun kv => decide (kv.1 ∈ PERSISTENT_ATTRS))) := by
  induction cfg with
  | nil => intro u; rfl
  | cons kv rest ih =>
      intro u
      rcases kv with ⟨k, v⟩
      by_cases hk : k ∈ PERSISTENT_ATTRS
      · rw [List.filter_cons_of_pos (by simpa using hk)]
        simp only [applySettings, if_pos hk]
        cases h : setattr u k v
        · simp only [h]
        · simp only [h]
          exact ih _
      · rw [List.filter_cons_of_neg (by simpa using hk)]
        simp only [applySettings, if_neg hk]
        exact ih u

/-- **C9** (amended): for a `UserConfiguration` in which `plate_format`
and `workflow` *were* supplied at construction, iterating yields exactly
the whitelisted keys, in `dir()` (sorted) order, with their current —
possibly lazily defaulted — values, and with `workflow` expanded to its
dict form; keys of `cfg_settings` outside the whitelist are silently
ignored at construction (construction only consults the whitelisted
entries) and hence never yielded.  When `plate_format` or `workflow` was
not supplied, iteration instead raises `AttributeError`
(see the counterexample). -/
theorem C9_user_configuration_iter (d : String)
    (cfg : List (String × CfgVal)) (u : UserConfiguration) (pf : Int)
    (w : WorkflowDescription) (_hinit : init d cfg = .ok u)
    (hpf : u.plate_format_ = some pf) (hwf : u.workflow_ = some w) :
    iter u = .ok
      [("layers_dir", .str (layers_dir u)),
       ("plate_format", .int pf),
       ("plates_dir", .str (plates_dir u)),
       ("sources_dir", .str (sources_dir u)),
       ("workflow", .dict w.asDict)] ∧
    init d cfg =
      init d (cfg.filter (fun kv => decide (kv.1 ∈ PERSISTENT_ATTRS))) := by
  constructor
  · unfold iter
    rw [hpf, hwf]
  · unfold init
    exact applySettings_filter cfg _

/-- Witness for C9, applying the amended theorem at a concrete
configuration (with a non-whitelisted key `nonsense` present). -/
theorem C9_user_configuration_iter_witness :
    iter
      { experiment_dir := "/experiment", sources_dir_ := none,
        plates_dir_ := none, layers_dir_ := none,
        plate_format_ := some 96,
        workflow_ := some ⟨[("type", "canonical")]⟩ } = .ok
      [("layers_dir", .str (layers_dir
          { experiment_dir := "/experiment", sources_dir_ := none,
            plates_dir_ := none, layers_dir_ := none,
            plate_format_ := some 96,
            workflow_ := some ⟨[("type", "canonical")]⟩ })),
       ("plate_format", .int 96),
       ("plates_dir", .str (plates_dir
          { experiment_dir := "/experiment", sources_dir_ := none,
            plates_dir_ := none, layers_dir_ := none,
            plate_format_ := some 96,
            workflow_ := some ⟨[("type", "canonical")]⟩ })),
       ("sources_dir", .str (sources_dir
          { experiment_dir := "/experiment", sources_dir_ := none,
            plates_dir_ := none, layers_dir_ := none,
            plate_format_ := some 96,
            workflow_ := some ⟨[("type", "canonical")]⟩ })),
       ("workflow", .dict [("type", "canonical")])] ∧
    init "/experiment"
      [("plate_format", CfgVal.int 96),
       ("workflow", CfgVal.dict [("type", "canonical")]),
       ("nonsense", CfgVal.int 0)] =
    init "/experiment"
      (([("plate_format", CfgVal.int 96),
         ("workflow", CfgVal.dict [("type", "canonical")]),
         ("nonsense", CfgVal.int 0)] :
          List (String × CfgVal)).filter
        (fun kv => decide (kv.1 ∈ PERSISTENT_ATTRS))) :=
  C9_user_configuration_iter "/experiment"
    [("plate_format", CfgVal.int 96),
     ("workflow", CfgVal.dict [("type", "canonical")]),
     ("nonsense", CfgVal.int 0)]
    { experiment_dir := "/experiment", sources_dir_ := none,
      plates_dir_ := none, layers_dir_ := none,
      plate_format_ := some 96,
      workflow_ := some ⟨[("type", "canonical")]⟩ }
    96 ⟨[("type", "canonical")]⟩ rfl rfl rfl

end TmLib.Cfg

namespace TmLib.Imextract

/-! ### Theorems about `ImageExtractor.create_batches` (claim C2) -/

theorem packAux_flatten (n : Nat) :
    ∀ (gs cur : List (List Nat)) (sz : Nat),
      (packAux n cur sz gs).flatten = cur.reverse ++ gs := by
  intro gs
  induction gs with
  | nil =>
      intro cur sz
      by_cases h : cur = []
      · subst h; simp [packAux]
      · simp [packAux, h]
  | cons g rest ih =>
      intro cur sz
      by_cases h : cur = []
      · subst h
        show (packAux n [g] g.length rest).flatten = [].reverse ++ g :: rest
        rw [ih]
        simp
      · simp only [packAux, if_neg h]
        by_cases hfit : sz + g.length ≤ n
        · rw [if_pos hfit, ih]
          simp
        · rw [if_neg hfit, List.flatten_cons, ih]
          simp

theorem packAux_mem (n : Nat) :
    ∀ (gs cur : List (List Nat)) (sz : Nat) (g : List Nat),
      g ∈ cur ∨ g ∈ gs → ∃ b ∈ packAux n cur sz gs, g ∈ b := by
  intro gs
  induction gs with
  | nil =>
      intro cur sz g hg
      rcases hg with hg | hg
      · have h : ¬ cur = [] := by rintro rfl; simp at hg
        refine ⟨cur.reverse, ?_, ?_⟩
        · simp [packAux, h]
        · simpa using hg
      · simp at hg
  | cons g0 rest ih =>
      intro cur sz g hg
      by_cases h : cur = []
      · subst h
        show ∃ b ∈ packAux n [g0] g0.length rest, g ∈ b
        apply ih [g0] g0.length g
        rcases hg with hg | hg
        · simp at hg
        · rcases List.mem_cons.mp hg with hgg | hg'
          · exact Or.inl (by simp [hgg])
          · exact Or.inr hg'
      · simp only [packAux, if_neg h]
        by_cases hfit : sz + g0.length ≤ n
        · rw [if_pos hfit]
          apply ih (g0 :: cur) (sz + g0.length) g
          rcases hg with hg | hg
          · exact Or.inl (List.mem_cons_of_mem _ hg)
          · rcases List.mem_cons.mp hg with hgg | hg'
            · exact Or.inl (by simp [hgg])
            · exact Or.inr hg'
        · rw [if_neg hfit]
          rcases hg with hg | hg
          · exact ⟨cur.reverse, by simp, by simpa using hg⟩
          · rcases List.mem_cons.mp hg with hgg | hg'
            · obtain ⟨b, hb, hgb⟩ := ih [g0] g0.length g (Or.inl (by simp [hgg]))
              exact ⟨b, List.mem_cons_of_mem _ hb, hgb⟩
            · obtain ⟨b, hb, hgb⟩ := ih [g0] g0.length g (Or.inr hg')
              exact ⟨b, List.mem_cons_of_mem _ hb, hgb⟩

theorem packAux_size (n : Nat) (P : List Nat → Prop) :
    ∀ (gs cur : List (List Nat)) (sz : Nat),
      sz = (cur.map List.length).sum →
      (∀ g ∈ gs, P g) →
      (cur ≠ [] → sz ≤ n ∨ ∃ g, cur = [g] ∧ P g) →
      ∀ b ∈ packAux n cur sz gs,
        b.flatten.length ≤ n ∨ ∃ g, b = [g] ∧ P g := by
  intro gs
  induction gs with
  | nil =>
      intro cur sz hsz hP hinv b hb
      by_cases h : cur = []
      · subst h; simp [packAux] at hb
      · simp only [packAux, if_neg h] at hb
        rcases List.mem_singleton.mp hb with rfl
        rcases hinv h with hle | ⟨g, hg, hPg⟩
        · left
          rw [List.length_flatten]
          calc (cur.reverse.map List.length).sum
              = (cur.map List.length).sum := by
                rw [List.map_reverse, List.sum_reverse]
            _ ≤ n := hsz ▸ hle
        · right
          exact ⟨g, by simp [hg], hPg⟩
  | cons g0 rest ih =>
      intro cur sz hsz hP hinv b hb
      have hP0 : P g0 := hP g0 (by simp)
      have hPrest : ∀ g ∈ rest, P g := fun g hg => hP g (by simp [hg])
      by_cases h : cur = []
      · subst h
        have hb' : b ∈ packAux n [g0] g0.length rest := hb
        exact ih [g0] g0.length (by simp) hPrest
          (fun _ => Or.inr ⟨g0, rfl, hP0⟩) b hb'
      · simp only [packAux, if_neg h] at hb
        by_cases hfit : sz + g0.length ≤ n
        · rw [if_pos hfit] at hb
          exact ih (g0 :: cur) (sz + g0.length)
            (by simp [hsz, Nat.add_comm]) hPrest (fun _ => Or.inl hfit) b hb
        · rw [if_neg hfit] at hb
          rcases List.mem_cons.mp hb with hbc | hb'
          · subst hbc
            rcases hinv h with hle | ⟨g, hg, hPg⟩
            · left
              rw [List.length_flatten]
              calc (cur.reverse.map List.length).sum
                  = (cur.map List.length).sum := by
                    rw [List.map_reverse, List.sum_reverse]
                _ ≤ n := hsz ▸ hle
            · right
              exact ⟨g, by simp [hg], hPg⟩
          · exact ih [g0] g0.length (by simp) hPrest
              (fun _ => Or.inr ⟨g0, rfl, hP0⟩) b hb'

theorem countP_flatten_nodup (a : Nat) :
    ∀ L : List (List Nat), L.flatten.Nodup → a ∈ L.flatten →
      L.countP (fun l => decide (a ∈ l)) = 1 := by
  intro L
  induction L with
  | nil => intro _ h; simp at h
  | cons l rest ih =>
      intro hnd hmem
      rw [List.flatten_cons] at hnd hmem
      rw [List.nodup_append] at hnd
      obtain ⟨hl, hrest, hdisj⟩ := hnd
      rw [List.countP_cons]
      rcases List.mem_append.mp hmem with h | h
      · have hz : rest.countP (fun l' => decide (a ∈ l')) = 0 := by
          rw [List.countP_eq_zero]
          intro l' hl'
          simp only [decide_eq_true_eq]
          intro ha
          exact hdisj h (List.mem_flatten.mpr ⟨l', hl', ha⟩)
        rw [hz]
        simp [h]
      · have hna : a ∉ l := fun ha => hdisj ha h
        rw [ih hrest h]
        simp [hna]

theorem flatten_map_flatten (L : List (List (List Nat))) :
    (L.map List.flatten).flatten = L.flatten.flatten := by
  induction L with
  | nil => rfl
  | cons b rest ih =>
      simp only [List.map_cons, List.flatten_cons, List.flatten_append, ih]

theorem create_batches_ids (groups : List (List Nat)) (n : Nat) (mip : Bool) :
    (create_batches groups n mip).map (fun j => j.image_file_mapping_ids) =
      (packGroups n groups).map List.flatten := by
  unfold create_batches
  rw [List.map_map]
  calc (packGroups n groups).enum.map
        ((fun j : RunJob => j.image_file_mapping_ids) ∘
          (fun p => ({ id := p.1 + 1, image_file_mapping_ids := p.2.flatten,
                       mip := mip } : RunJob)))
      = ((packGroups n groups).enum.map Prod.snd).map List.flatten := by
        rw [List.map_map]; rfl
    _ = (packGroups n groups).map List.flatten := by rw [List.enum_map_snd]

end TmLib.Imextract

namespace TmLib.Imextract

/-- **C2 counterexample**: with sites `[[1,2,3],[4],[5]]` and
`batch_size = 2` the produced run jobs are `[1,2,3]` and `[4,5]`: the
first carries three mappings (more than `batch_size` — the whole first
site), and the second combines mapping records from two different sites.
Both the "no job combines mapping records from two different sites" and
the "batches no larger than batch_size" readings of the claim are false
as stated. -/
theorem C2_create_batches_counterexample :
    ¬ noJobCombinesSites [[1, 2, 3], [4], [5]]
        (create_batches [[1, 2, 3], [4], [5]] 2 false) ∧
    ¬ batchesWithinLimit (create_batches [[1, 2, 3], [4], [5]] 2 false) 2 := by
  constructor
  · intro hno
    exact (hno ⟨2, [4, 5], false⟩ (by decide) [4] (by decide) [5] (by decide)
      (by decide)) ⟨⟨4, by decide, by decide⟩, ⟨5, by decide, by decide⟩⟩
  · intro hlim
    exact absurd (hlim ⟨1, [1, 2, 3], false⟩ (by decide)) (by decide)

/-- **C2** (amended): for any distribution of mapping records across sites
(given as the per-site groups the `group_by(site_id)` query returns, with
globally distinct mapping ids) and any `batch_size`: every mapping record
appears in exactly one run job; the mappings belonging to one site all
land in the same job (a batch never splits a site); and every job carries
at most `batch_size` mappings unless it consists of exactly one site's
mappings, whose count alone exceeds `batch_size`.  A job *may* combine the
mappings of several sites (see the counterexample). -/
theorem C2_create_batches_invariants (groups : List (List Nat)) (n : Nat)
    (mip : Bool) (hnd : groups.flatten.Nodup) :
    (∀ a ∈ groups.flatten,
      (create_batches groups n mip).countP
        (fun j => decide (a ∈ j.image_file_mapping_ids)) = 1) ∧
    (∀ g ∈ groups, ∃ j ∈ create_batches groups n mip,
      ∀ a ∈ g, a ∈ j.image_file_mapping_ids) ∧
    (∀ j ∈ create_batches groups n mip,
      j.image_file_mapping_ids.length ≤ n ∨
        ∃ g ∈ groups, j.image_file_mapping_ids = g) := by
  have hpack : (packGroups n groups).flatten = groups := by
    have := packAux_flatten n groups [] 0
    simpa [packGroups] using this
  have hids := create_batches_ids groups n mip
  refine ⟨?_, ?_, ?_⟩
  · intro a ha
    have hcount : ((packGroups n groups).map List.flatten).countP
        (fun l => decide (a ∈ l)) = 1 := by
      apply countP_flatten_nodup
      · rw [flatten_map_flatten, hpack]
        exact hnd
      · rw [flatten_map_flatten, hpack]
        exact ha
    calc (create_batches groups n mip).countP
          (fun j => decide (a ∈ j.image_file_mapping_ids))
        = ((create_batches groups n mip).map
            (fun j => j.image_file_mapping_ids)).countP
            (fun l => decide (a ∈ l)) := by
          rw [List.countP_map]; rfl
      _ = ((packGroups n groups).map List.flatten).countP
            (fun l => decide (a ∈ l)) := by rw [hids]
      _ = 1 := hcount
  · intro g hg
    obtain ⟨b, hb, hgb⟩ := packAux_mem n groups [] 0 g (Or.inr hg)
    have hbmem : b.flatten ∈ (create_batches groups n mip).map
        (fun j => j.image_file_mapping_ids) := by
      rw [hids]
      exact List.mem_map_of_mem List.flatten hb
    obtain ⟨j, hj, hjid⟩ := List.mem_map.mp hbmem
    refine ⟨j, hj, fun a ha => ?_⟩
    rw [hjid]
    exact List.mem_flatten.mpr ⟨g, hgb, ha⟩
  · intro j hj
    have hjmem : j.image_file_mapping_ids ∈
        (packGroups n groups).map List.flatten := by
      rw [← hids]
      exact List.mem_map_of_mem _ hj
    obtain ⟨b, hb, hbid⟩ := List.mem_map.mp hjmem
    have hsize := packAux_size n (fun g => g ∈ groups) groups [] 0 rfl
      (fun g hg => hg) (fun hcur => absurd rfl hcur) b hb
    rcases hsize with hle | ⟨g, hbg, hgmem⟩
    · left
      rw [hbid] at hle
      exact hle
    · right
      refine ⟨g, hgmem, ?_⟩
      rw [← hbid, hbg]
      simp

/-- Witness for C2, applying the amended theorem at the counterexample's
input: site `[4]`'s mapping lands (whole) in one of the produced jobs. -/
theorem C2_create_batches_invariants_witness :
    ∃ j ∈ create_batches [[1, 2, 3], [4], [5]] 2 false,
      ∀ a ∈ [4], a ∈ j.image_file_mapping_ids :=
  ((C2_create_batches_invariants [[1, 2, 3], [4], [5]] 2 false
    (by decide)).2.1) [4] (by decide)

end TmLib.Imextract

namespace TmLib.Imageutil

/-! ### Theorems about `hist_sample_from_sites` (claim C10) -/

theorem getD_zipWith_uadd :
    ∀ (h g : List Nat) (i : Nat), i < h.length → h.length ≤ g.length →
      (List.zipWith uadd h g).getD i 0 = uadd (h.getD i 0) (g.getD i 0) := by
  intro h
  induction h with
  | nil => intro g i hi _; simp at hi
  | cons x h' ih =>
      intro g i hi hg
      cases g with
      | nil => simp at hg
      | cons y g' =>
          cases i with
          | zero => rfl
          | succ i' =>
              simp only [List.zipWith_cons_cons, List.getD_cons_succ]
              exact ih g' i' (by simpa using hi) (by simpa using hg)

theorem fold_hist_getD (histOf : String → List Nat)
    (h256 : ∀ f, (histOf f).length = 256) :
    ∀ (fs : List String) (h : List Nat), h.length = 256 →
      (∀ j, h.getD j 0 < 2 ^ 32) →
      (fs.foldl (fun acc f => List.zipWith uadd acc (histOf f)) h).length = 256 ∧
      ∀ i < 256,
        (fs.foldl (fun acc f => List.zipWith uadd acc (histOf f)) h).getD i 0 =
          (h.getD i 0 + (fs.map (fun f => (histOf f).getD i 0)).sum) % 2 ^ 32 := by
  intro fs
  induction fs with
  | nil =>
      intro h hlen hbound
      refine ⟨hlen, fun i _ => ?_⟩
      simp only [List.foldl_nil, List.map_nil, List.sum_nil, Nat.add_zero]
      exact (Nat.mod_eq_of_lt (hbound i)).symm
  | cons f fs' ih =>
      intro h hlen hbound
      have hlen' : (List.zipWith uadd h (histOf f)).length = 256 := by
        rw [List.length_zipWith, hlen, h256 f]
        exact min_self 256
      have hbound' : ∀ j, (List.zipWith uadd h (histOf f)).getD j 0 < 2 ^ 32 := by
        intro j
        by_cases hj : j < (List.zipWith uadd h (histOf f)).length
        · rw [getD_zipWith_uadd h (histOf f) j (by omega) (by rw [hlen, h256 f])]
          exact Nat.mod_lt _ (by norm_num)
        · rw [List.getD_eq_default _ _ (by omega)]
          norm_num
      obtain ⟨hl, hval⟩ := ih (List.zipWith uadd h (histOf f)) hlen' hbound'
      refine ⟨hl, fun i hi => ?_⟩
      simp only [List.foldl_cons]
      rw [hval i hi,
        getD_zipWith_uadd h (histOf f) i (by omega) (by rw [hlen, h256 f])]
      simp only [List.map_cons, List.sum_cons]
      unfold uadd
      rw [Nat.mod_add_mod]
      ring_nf

set_option maxRecDepth 8192 in
/-- **C10**: `hist_sample_from_sites` is only defined when the filename
list has at least `nr_to_sample` entries: for any shorter list the
`rand.sample` draw raises `ValueError` before any file is read (the
result is the same error for *every* histogram oracle, i.e. independent of
the image contents).  Under that precondition, the draw consists of
`nr_to_sample` entries taken at distinct positions of `filenames`
(modelled as `sampled <+~ filenames` with `sampled.length =
nr_to_sample`, the `random.sample` contract), and the result is the
elementwise sum of the sampled images' 256-bin histograms — accumulated in
an unsigned 32-bit array, hence mod `2^32` — divided by `nr_to_sample`
with integer-truncating division. -/
theorem C10_hist_sample_from_sites_spec (histOf histOf' : String → List Nat)
    (filenames : List String) (nr_to_sample : Nat) (sampled : List String) :
    (filenames.length < nr_to_sample →
      hist_sample_from_sites histOf filenames nr_to_sample sampled =
        .error (.valueError "sample larger than population") ∧
      hist_sample_from_sites histOf filenames nr_to_sample sampled =
        hist_sample_from_sites histOf' filenames nr_to_sample sampled) ∧
    (sampled.Subperm filenames → sampled.length = nr_to_sample →
      (∀ f, (histOf f).length = 256) →
      ∃ l, hist_sample_from_sites histOf filenames nr_to_sample sampled =
          .ok l ∧
        l.length = 256 ∧
        ∀ i < 256, l.getD i 0 =
          ((sampled.map (fun f => (histOf f).getD i 0)).sum % 2 ^ 32) /
            nr_to_sample) := by
  constructor
  · intro hshort
    have hcond : ¬ nr_to_sample ≤ filenames.length := by omega
    unfold hist_sample_from_sites
    rw [if_neg hcond, if_neg hcond]
    exact ⟨rfl, rfl⟩
  · intro hsub hslen h256
    have hcond : nr_to_sample ≤ filenames.length := hslen ▸ hsub.length_le
    obtain ⟨hflen, hfval⟩ := fold_hist_getD histOf h256 sampled
      (List.replicate 256 0) (by simp) (by
        intro j
        by_cases hj : j < 256
        · rw [List.getD_eq_getElem _ _ (by simpa using hj)]
          rw [List.getElem_replicate]
          norm_num
        · rw [List.getD_eq_default _ _ (by simpa using hj)]
          norm_num)
    unfold hist_sample_from_sites
    rw [if_pos hcond]
    refine ⟨_, rfl, ?_, ?_⟩
    · simpa using hflen
    · intro i hi
      have hilt : i < (sampled.foldl
          (fun acc f => List.zipWith uadd acc (histOf f))
          (List.replicate 256 0)).length := by omega
      rw [List.getD_eq_getElem _ _ (by simpa using hilt)]
      rw [List.getElem_map]
      rw [← List.getD_eq_getElem _ 0 hilt]
      rw [hfval i hi]
      have hrep : (List.replicate 256 0).getD i 0 = 0 := by
        rw [List.getD_eq_getElem _ _ (by simpa using hi)]
        rw [List.getElem_replicate]
      rw [hrep, hslen]
      simp

set_option maxRecDepth 8192 in
/-- Witness for C10, applying the theorem at a concrete sample: two files
drawn from a two-file list, each with a constant histogram of `4` per bin;
the averaged histogram has `(4 + 4) % 2^32 / 2 = 4` in every bin. -/
theorem C10_hist_sample_from_sites_spec_witness :
    ∃ l, hist_sample_from_sites (fun _ => List.replicate 256 4)
        ["a", "b"] 2 ["b", "a"] = .ok l ∧
      l.length = 256 ∧
      ∀ i < 256, l.getD i 0 =
        (((["b", "a"] : List String).map
            (fun f => ((fun _ => List.replicate 256 4) f).getD i 0)).sum %
          2 ^ 32) / 2 :=
  (C10_hist_sample_from_sites_spec (fun _ => List.replicate 256 4)
    (fun _ => List.replicate 256 4) ["a", "b"] 2 ["b", "a"]).2
    (List.Perm.subperm (List.Perm.swap "a" "b" []))
    rfl (fun _ => by simp)

end TmLib.Imageutil
